import Mathlib

/-
Shallow embedding of the grblHAL fans plugin (src/fans.c).

The plugin keeps three pieces of runtime state: a 32-bit on/off bitset
`fans_on`, a 32-bit `fans_linked` bitset marking fans currently driven by the
spindle link, and a `fans` settings struct holding the per-fan output port
numbers (0xFF = unassigned) and the spindle-link bitmask.  The persisted
configuration `fan_setting` additionally carries the fan-0 off delay (a float,
modelled here as a rational: only comparisons with 0 and exact storage are
exercised).  The host scheduler's `task_add_delayed`/`task_delete` pair (not
part of this repository) is modelled from the spec: scheduling replaces any
pending instance of the same task and cancellation removes it, so a single
boolean `fan0OffPending` tracks the one delayed fan-0 off task.  Calls into
the host (digital output writes, the aliased spindle state-setter, task
scheduling, delegation to previously chained handlers) are recorded as an
event trace so that ordering and frame properties can be stated.

`fan_spindle_set_state` is never assigned in the source (the body of
`spindle_enumerate` that would set it is commented out), but the field and the
branch using it are kept, matching the code.
-/

namespace Fans

/-- Status codes of the grblHAL core that fans.c returns. -/
inductive status_code_t where
  | Status_OK
  | Status_GcodeValueOutOfRange
  | Status_BadNumberFormat
  | Status_Unhandled
  deriving DecidableEq

/-- The user M-codes the plugin intercepts; `other` stands for any other code. -/
inductive user_mcode_t where
  | Fan_On
  | Fan_Off
  | other
  deriving DecidableEq

/-- Observable calls fans.c makes into the host framework. -/
inductive Ev where
  | taskAddDelayed
  | taskDelete
  | digitalOut (port : Nat) (turnOn : Bool)
  | spindleOut (turnOn : Bool)
  | chainSpindleSetState (turnOn : Bool)
  | chainDriverReset
  | chainProgramCompleted
  | chainMCodeExecute
  | chainAccessoryOverride
  deriving DecidableEq

/-- Runtime state of the module: the bitsets `fans_on` and `fans_linked`, the
runtime settings struct `fans` (port map and spindle-link mask), the persisted
`fan_setting.fan0_off_delay`, the modelled pending delayed-off task, the
`sys.report.fan` flag and the (always NULL in the source) spindle alias. -/
structure FanState where
  fansOn : Nat
  fansLinked : Nat
  port : Fin 4 → Nat
  spindleLink : Nat
  fan0OffDelay : Rat
  fan0OffPending : Bool
  reportFan : Bool
  fanSpindleSetState : Bool

/-- C macro `bit(i)` on a 32-bit word. -/
def bit32 (i : Nat) : Nat := 1 <<< i

/-- C macro `bit_true(x, bit(i))`: `x |= 1 << i`. -/
def bit_true (x i : Nat) : Nat := x ||| bit32 i

/-- C macro `bit_false(x, bit(i))`: `x &= ~(1 << i)` on a uint32_t. -/
def bit_false (x i : Nat) : Nat := x &&& (0xFFFFFFFF ^^^ bit32 i)

/-- fans.c `fan_get_state`: false when the fan's port is unassigned (0xFF),
else the `fans_on` bit. -/
def fan_get_state (s : FanState) (fan : Fin 4) : Bool :=
  decide (s.port fan ≠ 255) && s.fansOn.testBit fan.val

/-- fans.c `fan_set_state`: no-op when the fan's port is unassigned; else it
updates the on/off bit, clears the linked bit when turning off, deletes the
pending delayed-off task when the fan is fan 0, raises `sys.report.fan`, and
drives the port (or the aliased spindle state-setter for fan 0). -/
def fan_set_state (s : FanState) (fan : Fin 4) (turnOn : Bool) : FanState × List Ev :=
  if s.port fan ≠ 255 then
    let s1 :=
      if turnOn then { s with fansOn := bit_true s.fansOn fan.val }
      else { s with fansOn := bit_false s.fansOn fan.val,
                    fansLinked := bit_false s.fansLinked fan.val }
    let p1 : FanState × List Ev :=
      if fan.val = 0 then ({ s1 with fan0OffPending := false }, [Ev.taskDelete])
      else (s1, [])
    let s2 := { p1.1 with reportFan := true }
    if fan.val = 0 ∧ s2.fanSpindleSetState = true then
      (s2, p1.2 ++ [Ev.spindleOut turnOn])
    else
      (s2, p1.2 ++ [Ev.digitalOut (s2.port fan) turnOn])
  else (s, [])

/-- Host macro `isintf`, modelled from the spec as exact integrality of the
parsed parameter value ("a non-negative integer"). -/
def isintf (x : Rat) : Bool := x.den == 1

/-- fans.c `userMCodeValidate` for a block carrying mcode `mcode`, word flag
`words.p` and value `values.p`.  The result pairs the returned status with the
final `words.p` flag (cleared when a P word was present).  The C indexes
`fans.port[(uint_fast8_t)values.p]`, a 4-entry array, without any upper bound
on the value; an index beyond the array is an out-of-bounds read (undefined
behavior) and is modelled as `none`.  For the `other` case the C delegates to
the previously saved validate handler when one exists; the chain is modelled
as absent, so `Status_Unhandled` is returned, as the C does then. -/
def userMCodeValidate (s : FanState) (mcode : user_mcode_t) (wordsP : Bool)
    (valuesP : Rat) : Option (status_code_t × Bool) :=
  match mcode with
  | .Fan_On | .Fan_Off =>
    if wordsP then
      if isintf valuesP = false ∨ valuesP < 0 then
        some (.Status_GcodeValueOutOfRange, false)
      else
        if h : valuesP.num.toNat < 4 then
          if s.port ⟨valuesP.num.toNat, h⟩ = 255 then
            some (.Status_GcodeValueOutOfRange, false)
          else
            some (.Status_OK, false)
        else none
    else some (.Status_OK, false)
  | .other => some (.Status_Unhandled, wordsP)

/-- fans.c `userMCodeExecute`.  The C computes
`fan = words.p ? (uint8_t)values.p : 0`; the index is modelled in range
(`Fin 4`), which is every index the (intended) validation admits.  In check
mode the whole switch is skipped and `handled` stays true, so nothing runs and
nothing is delegated. -/
def userMCodeExecute (s : FanState) (checkMode : Bool) (mcode : user_mcode_t)
    (wordsP : Bool) (valuesP : Fin 4) : FanState × List Ev :=
  let fan : Fin 4 := if wordsP then valuesP else 0
  if checkMode then (s, [])
  else
    match mcode with
    | .Fan_On => fan_set_state s fan true
    | .Fan_Off =>
      let p1 : FanState × List Ev :=
        if fan.val = 0 then ({ s with fan0OffPending := false }, [Ev.taskDelete])
        else (s, [])
      let p2 := fan_set_state p1.1 fan false
      (p2.1, p1.2 ++ p2.2)
    | .other => (s, [Ev.chainMCodeExecute])

/-- One iteration of the loop in fans.c `onSpindleSetState`, at index `idx`.
`FANS_ENABLE` is at most 4, so the `idx < 4` dichotomy's out-of-range branch
is never reached; it is a formal no-op placeholder. -/
def spindleStep (stateOn : Bool) (s : FanState) (idx : Nat) : FanState × List Ev :=
  if h : idx < 4 then
    if s.spindleLink.testBit idx then
      if stateOn = false ∧ s.fansLinked.testBit idx = false then (s, [])
      else
        let s1 :=
          if stateOn = true ∧ fan_get_state s ⟨idx, h⟩ = false then
            { s with fansLinked := bit_true s.fansLinked idx }
          else s
        if idx = 0 ∧ stateOn = false ∧ 0 < s1.fan0OffDelay then
          ({ s1 with fan0OffPending := true }, [Ev.taskAddDelayed])
        else fan_set_state s1 ⟨idx, h⟩ stateOn
    else (s, [])
  else (s, [])

/-- The `do { ... } while(idx)` loop of `onSpindleSetState`, run with the
counter starting at `n`: iterates `spindleStep` at `n-1, n-2, ..., 0`. -/
def spindleLoop (stateOn : Bool) : Nat → FanState → FanState × List Ev
  | 0, s => (s, [])
  | n + 1, s =>
    let p1 := spindleStep stateOn s n
    let p2 := spindleLoop stateOn n p1.1
    (p2.1, p1.2 ++ p2.2)

/-- fans.c `onSpindleSetState` with `FANS_ENABLE = nFans`: mirrors spindle
state to the linked fans, then calls through to the saved spindle
state-setter. -/
def onSpindleSetState (nFans : Nat) (stateOn : Bool) (s : FanState) :
    FanState × List Ev :=
  let p := spindleLoop stateOn nFans s
  (p.1, p.2 ++ [Ev.chainSpindleSetState stateOn])

/-- The `do { fan_set_state(--idx, Off); } while(idx)` loop of fans.c
`driverReset`, with the counter starting at `n`. -/
def offLoop : Nat → FanState → FanState × List Ev
  | 0, s => (s, [])
  | n + 1, s =>
    let p1 := if h : n < 4 then fan_set_state s ⟨n, h⟩ false else (s, [])
    let p2 := offLoop n p1.1
    (p2.1, p1.2 ++ p2.2)

/-- fans.c `driverReset` with `FANS_ENABLE = nFans`: calls the saved
`driver_reset` first, then turns every fan off. -/
def driverReset (nFans : Nat) (s : FanState) : FanState × List Ev :=
  let p := offLoop nFans s
  (p.1, Ev.chainDriverReset :: p.2)

/-- The loop of fans.c `onProgramCompleted`, with the counter starting at `n`:
fan 0 gets a delayed off task instead of an immediate off when its port is
assigned and `fan0_off_delay` is positive. -/
def pcLoop : Nat → FanState → FanState × List Ev
  | 0, s => (s, [])
  | n + 1, s =>
    let p1 :=
      if n = 0 ∧ s.port 0 ≠ 255 ∧ 0 < s.fan0OffDelay then
        ({ s with fan0OffPending := true }, [Ev.taskAddDelayed])
      else if h : n < 4 then fan_set_state s ⟨n, h⟩ false else (s, [])
    let p2 := pcLoop n p1.1
    (p2.1, p1.2 ++ p2.2)

/-- fans.c `onProgramCompleted` with `FANS_ENABLE = nFans`: turns the fans off
(fan 0 possibly via the delayed path), then delegates to the saved handler
(modelled as installed). -/
def onProgramCompleted (nFans : Nat) (s : FanState) : FanState × List Ev :=
  let p := pcLoop nFans s
  (p.1, p.2 ++ [Ev.chainProgramCompleted])

/-- fans.c `onAccessoryOverride`: toggles fan 0 on `CMD_OVERRIDE_FAN0_TOGGLE`
when fan 0's port is assigned, else delegates to the saved handler (modelled
as installed). -/
def onAccessoryOverride (s : FanState) (isFan0Toggle : Bool) : FanState × List Ev :=
  if isFan0Toggle = true ∧ s.port 0 ≠ 255 then
    fan_set_state s 0 (! fan_get_state s 0)
  else (s, [Ev.chainAccessoryOverride])

/-- An invocation of one of the module's operations (the entry points of
fans.c reachable after installation). -/
inductive FanOp where
  | setState (fan : Fin 4) (turnOn : Bool)
  | getState (fan : Fin 4)
  | mcodeExecute (checkMode : Bool) (mcode : user_mcode_t) (wordsP : Bool) (valuesP : Fin 4)
  | spindleSetState (stateOn : Bool)
  | reset
  | programCompleted
  | accessoryOverride (isFan0Toggle : Bool)

/-- Apply one operation to the module state. -/
def applyOp (nFans : Nat) (s : FanState) : FanOp → FanState × List Ev
  | .setState fan turnOn => fan_set_state s fan turnOn
  | .getState _ => (s, [])
  | .mcodeExecute cm mc wp vp => userMCodeExecute s cm mc wp vp
  | .spindleSetState b => onSpindleSetState nFans b s
  | .reset => driverReset nFans s
  | .programCompleted => onProgramCompleted nFans s
  | .accessoryOverride b => onAccessoryOverride s b

/-- Run a sequence of operations. -/
def runOps (nFans : Nat) (s : FanState) : List FanOp → FanState
  | [] => s
  | op :: ops => runOps nFans (applyOp nFans s op).1 ops

/-- The module state right after installation: both runtime bitsets are the
static-zero ones; the port map and the off delay come from the settings
load. -/
def initState (port : Fin 4 → Nat) (delay : Rat) : FanState :=
  { fansOn := 0, fansLinked := 0, port := port, spindleLink := 0,
    fan0OffDelay := delay, fan0OffPending := false, reportFan := false,
    fanSpindleSetState := false }

/-- The settings ids the fans settings table uses (plus a stand-in for any
other id). -/
inductive setting_id_t where
  | Setting_Fan0OffDelay
  | Setting_FanPort0
  | Setting_FanPort1
  | Setting_FanPort2
  | Setting_FanPort3
  | Setting_FanToSpindleLink
  | otherSetting
  deriving DecidableEq

/-- The persisted `fan_settings_t` struct (`fan_setting` in fans.c). -/
structure FanSettings where
  port : Fin 4 → Nat
  spindle_link : Nat
  fan0_off_delay : Rat

/-- The C cast `(uint8_t)value` of a float; meaningful for integral
`0 ≤ value < 256` (out of that range the conversion is undefined behavior). -/
def floatToUint8 (v : Rat) : Nat := v.num.toNat

/-- The per-case assignment of fans.c `set_float`:
`fan_setting.port[i] = value < 0.0f ? 255 : (uint8_t)value`. -/
def storePort (fs : FanSettings) (i : Fin 4) (value : Rat) : FanSettings :=
  { fs with port := Function.update fs.port i (if value < 0 then 255 else floatToUint8 value) }

/-- fans.c `set_float`, the write callback of the per-fan port settings.
Mirrors the source exactly: the `Setting_FanPort3` case stores into
`fan_setting.port[2]` (fans.c line 320). -/
def set_float (fs : FanSettings) (setting : setting_id_t) (value : Rat) :
    status_code_t × FanSettings :=
  if isintf value = true then
    match setting with
    | .Setting_FanPort0 => (.Status_OK, storePort fs 0 value)
    | .Setting_FanPort1 => (.Status_OK, storePort fs 1 value)
    | .Setting_FanPort2 => (.Status_OK, storePort fs 2 value)
    | .Setting_FanPort3 => (.Status_OK, storePort fs 2 value)
    | _ => (.Status_OK, fs)
  else (.Status_BadNumberFormat, fs)

/-- The state invariant of the module: a fan whose linked bit is set is on, a
fan whose on bit is set has an assigned port, and a fan whose runtime
spindle-link bit is set has an assigned port (the settings code establishes
the last part: `fan_settings_load` and `set_spindle_link` clear link bits of
unassigned fans). -/
def Inv (s : FanState) : Prop :=
  (∀ i : Fin 4, s.fansLinked.testBit i.val = true → s.fansOn.testBit i.val = true) ∧
  (∀ i : Fin 4, s.fansOn.testBit i.val = true → s.port i ≠ 255) ∧
  (∀ i : Fin 4, s.spindleLink.testBit i.val = true → s.port i ≠ 255)

/-- The module state after `fan_settings_load` on a build with
`FANS_ENABLE = 2` whose two fans got ports 7 and 6: the load loop writes only
`fans.port[0]` and `fans.port[1]`, so `fans.port[2]` and `fans.port[3]` keep
their static-zero value 0, which is not the 0xFF sentinel. -/
def postLoadState2 : FanState :=
  { fansOn := 0, fansLinked := 0, port := ![7, 6, 0, 0], spindleLink := 0,
    fan0OffDelay := 0, fan0OffPending := false, reportFan := false,
    fanSpindleSetState := false }

/-- A concrete state for witnesses: fans 0 and 1 assigned ports 7 and 6,
fan 1 on, a positive fan-0 off delay, and a pending delayed-off task. -/
def exState : FanState :=
  { fansOn := 2, fansLinked := 0, port := ![7, 6, 255, 255], spindleLink := 0,
    fan0OffDelay := 1, fan0OffPending := true, reportFan := false,
    fanSpindleSetState := false }

/-- A concrete state for the spindle-link scenarios: fan 0 assigned port 2,
linked to the spindle and currently spindle-driven, off delay 1 minute. -/
def linkedState : FanState :=
  { fansOn := 1, fansLinked := 1, port := ![2, 255, 255, 255], spindleLink := 1,
    fan0OffDelay := 1, fan0OffPending := false, reportFan := false,
    fanSpindleSetState := false }

/-- `linkedState` with a zero off delay. -/
def linkedStateZeroDelay : FanState :=
  { linkedState with fan0OffDelay := 0 }

/-- `linkedState` with the spindle-driven (linked) bit clear: fan 0 is
link-configured but was not turned on by the spindle. -/
def unlinkedState : FanState :=
  { linkedState with fansLinked := 0 }

/-- A concrete state for the lifecycle-hook scenarios: fan 0 assigned port 2
and on, positive off delay, a pending delayed-off task. -/
def resetState : FanState :=
  { fansOn := 1, fansLinked := 0, port := ![2, 255, 255, 255], spindleLink := 0,
    fan0OffDelay := 1, fan0OffPending := true, reportFan := false,
    fanSpindleSetState := false }

/-- A concrete settings struct for witnesses. -/
def exSettings : FanSettings :=
  { port := ![9, 9, 9, 9], spindle_link := 0, fan0_off_delay := 0 }

theorem bit32_eq_two_pow (i : Nat) : bit32 i = 2 ^ i := by
  simp [bit32, Nat.shiftLeft_eq]

theorem testBit_bit32_self (i : Nat) : (bit32 i).testBit i = true := by
  simp [bit32_eq_two_pow]

theorem testBit_bit32_of_ne {i j : Nat} (h : j ≠ i) : (bit32 i).testBit j = false := by
  simp [bit32_eq_two_pow, Nat.testBit_two_pow, (Ne.symm h)]

theorem testBit_bit_true_self (x i : Nat) : (bit_true x i).testBit i = true := by
  simp [bit_true, Nat.testBit_or, testBit_bit32_self]

theorem testBit_bit_true_of_ne (x : Nat) {i j : Nat} (h : j ≠ i) :
    (bit_true x i).testBit j = x.testBit j := by
  simp [bit_true, Nat.testBit_or, testBit_bit32_of_ne h]

theorem testBit_mask32 {j : Nat} (h : j < 32) : (0xFFFFFFFF : Nat).testBit j = true := by
  have h1 : (0xFFFFFFFF : Nat) = 2 ^ 32 - 1 := by norm_num
  rw [h1, Nat.testBit_two_pow_sub_one]
  simpa using h

theorem testBit_bit_false_self (x : Nat) {i : Nat} (h : i < 32) :
    (bit_false x i).testBit i = false := by
  simp [bit_false, Nat.testBit_and, Nat.testBit_xor, testBit_mask32 h, testBit_bit32_self]

theorem testBit_bit_false_of_ne (x : Nat) {i j : Nat} (h : j ≠ i) (hj : j < 32) :
    (bit_false x i).testBit j = x.testBit j := by
  simp [bit_false, Nat.testBit_and, Nat.testBit_xor, testBit_mask32 hj, testBit_bit32_of_ne h]

theorem fan_set_state_unassigned (s : FanState) (fan : Fin 4) (turnOn : Bool)
    (h : s.port fan = 255) : fan_set_state s fan turnOn = (s, []) := by
  simp [fan_set_state, h]

theorem fan_set_state_state (s : FanState) (fan : Fin 4) (turnOn : Bool)
    (h : s.port fan ≠ 255) :
    (fan_set_state s fan turnOn).1 =
      { s with
        fansOn := if turnOn then bit_true s.fansOn fan.val else bit_false s.fansOn fan.val,
        fansLinked := if turnOn then s.fansLinked else bit_false s.fansLinked fan.val,
        fan0OffPending := if fan.val = 0 then false else s.fan0OffPending,
        reportFan := true } := by
  simp only [fan_set_state, if_pos h]
  by_cases h0 : fan.val = 0 <;> by_cases hs : s.fanSpindleSetState = true <;>
    cases turnOn <;> simp [h0, hs]

theorem fan_set_state_events (s : FanState) (fan : Fin 4) (turnOn : Bool)
    (h : s.port fan ≠ 255) :
    (fan_set_state s fan turnOn).2 =
      (if fan.val = 0 then [Ev.taskDelete] else []) ++
      [if fan.val = 0 ∧ s.fanSpindleSetState = true then Ev.spindleOut turnOn
       else Ev.digitalOut (s.port fan) turnOn] := by
  simp only [fan_set_state, if_pos h]
  by_cases h0 : fan.val = 0 <;> by_cases hs : s.fanSpindleSetState = true <;>
    cases turnOn <;> simp [h0, hs]

theorem fan_set_state_port (s : FanState) (fan : Fin 4) (b : Bool) :
    (fan_set_state s fan b).1.port = s.port := by
  by_cases hp : s.port fan = 255
  · rw [fan_set_state_unassigned s fan b hp]
  · rw [fan_set_state_state s fan b hp]

theorem fan_set_state_spindleLink (s : FanState) (fan : Fin 4) (b : Bool) :
    (fan_set_state s fan b).1.spindleLink = s.spindleLink := by
  by_cases hp : s.port fan = 255
  · rw [fan_set_state_unassigned s fan b hp]
  · rw [fan_set_state_state s fan b hp]

theorem fan_set_state_delay (s : FanState) (fan : Fin 4) (b : Bool) :
    (fan_set_state s fan b).1.fan0OffDelay = s.fan0OffDelay := by
  by_cases hp : s.port fan = 255
  · rw [fan_set_state_unassigned s fan b hp]
  · rw [fan_set_state_state s fan b hp]

theorem fan_set_state_pending_ne_zero (s : FanState) (fan : Fin 4) (b : Bool)
    (h : fan.val ≠ 0) : (fan_set_state s fan b).1.fan0OffPending = s.fan0OffPending := by
  by_cases hp : s.port fan = 255
  · rw [fan_set_state_unassigned s fan b hp]
  · rw [fan_set_state_state s fan b hp]
    simp [h]

theorem fan_set_state_other_on_bit (s : FanState) (fan : Fin 4) (b : Bool)
    {j : Nat} (hj : j ≠ fan.val) (hj32 : j < 32) :
    (fan_set_state s fan b).1.fansOn.testBit j = s.fansOn.testBit j := by
  by_cases hp : s.port fan = 255
  · rw [fan_set_state_unassigned s fan b hp]
  · rw [fan_set_state_state s fan b hp]
    cases b <;> simp [testBit_bit_true_of_ne _ hj, testBit_bit_false_of_ne _ hj hj32]

theorem fan_set_state_other_linked_bit (s : FanState) (fan : Fin 4) (b : Bool)
    {j : Nat} (hj : j ≠ fan.val) (hj32 : j < 32) :
    (fan_set_state s fan b).1.fansLinked.testBit j = s.fansLinked.testBit j := by
  by_cases hp : s.port fan = 255
  · rw [fan_set_state_unassigned s fan b hp]
  · rw [fan_set_state_state s fan b hp]
    cases b <;> simp [testBit_bit_true_of_ne _ hj, testBit_bit_false_of_ne _ hj hj32]

theorem fan_set_state_count_taskAdd (s : FanState) (fan : Fin 4) (b : Bool) :
    (fan_set_state s fan b).2.count Ev.taskAddDelayed = 0 := by
  by_cases hp : s.port fan = 255
  · rw [fan_set_state_unassigned s fan b hp]
    rfl
  · rw [fan_set_state_events s fan b hp]
    by_cases h0 : fan.val = 0 <;> by_cases hs : s.fanSpindleSetState = true <;>
      simp [h0, hs, List.count_append, List.count_cons, List.count_nil]

theorem fan_set_state_count_chainPC (s : FanState) (fan : Fin 4) (b : Bool) :
    (fan_set_state s fan b).2.count Ev.chainProgramCompleted = 0 := by
  by_cases hp : s.port fan = 255
  · rw [fan_set_state_unassigned s fan b hp]
    rfl
  · rw [fan_set_state_events s fan b hp]
    by_cases h0 : fan.val = 0 <;> by_cases hs : s.fanSpindleSetState = true <;>
      simp [h0, hs, List.count_append, List.count_cons, List.count_nil]

theorem fan_get_after_set_off (s : FanState) (j i : Fin 4) :
    fan_get_state (fan_set_state s j false).1 i =
      if i = j then false else fan_get_state s i := by
  by_cases hij : i = j
  · subst hij
    by_cases hp : s.port i = 255
    · rw [fan_set_state_unassigned s i false hp]
      simp [fan_get_state, hp]
    · rw [fan_set_state_state s i false hp]
      simp [fan_get_state, testBit_bit_false_self s.fansOn (lt_trans i.isLt (by norm_num))]
  · have hv : i.val ≠ j.val := fun h => hij (Fin.ext h)
    by_cases hp : s.port j = 255
    · rw [fan_set_state_unassigned s j false hp]
      simp [hij]
    · rw [fan_set_state_state s j false hp]
      simp [fan_get_state, hij, testBit_bit_false_of_ne _ hv (lt_trans i.isLt (by norm_num))]

theorem spindleStep_false_eq (s : FanState) (idx : Nat) :
    spindleStep false s idx =
      if h : idx < 4 then
        if s.spindleLink.testBit idx = true ∧ s.fansLinked.testBit idx = true then
          if idx = 0 ∧ 0 < s.fan0OffDelay then
            ({ s with fan0OffPending := true }, [Ev.taskAddDelayed])
          else fan_set_state s ⟨idx, h⟩ false
        else (s, [])
      else (s, []) := by
  unfold spindleStep
  by_cases h4 : idx < 4
  · simp only [dif_pos h4]
    by_cases hl : s.spindleLink.testBit idx = true
    · by_cases hk : s.fansLinked.testBit idx = true
      · simp [hl, hk]
      · simp [hl, hk, Bool.not_eq_true _ ▸ hk]
    · simp [hl]
  · simp [h4]

theorem spindleStep_true_eq (s : FanState) (idx : Nat) :
    spindleStep true s idx =
      if h : idx < 4 then
        if s.spindleLink.testBit idx = true then
          fan_set_state
            (if fan_get_state s ⟨idx, h⟩ = false then
               { s with fansLinked := bit_true s.fansLinked idx }
             else s) ⟨idx, h⟩ true
        else (s, [])
      else (s, []) := by
  unfold spindleStep
  by_cases h4 : idx < 4
  · simp only [dif_pos h4]
    by_cases hl : s.spindleLink.testBit idx = true
    · by_cases hg : fan_get_state s ⟨idx, h4⟩ = false <;> simp [hl, hg]
    · simp [hl]
  · simp [h4]

theorem spindleStep_off_ne_zero (s : FanState) (idx : Nat) (hidx : idx ≠ 0) :
    (spindleStep false s idx).1.fansOn.testBit 0 = s.fansOn.testBit 0 ∧
    (spindleStep false s idx).1.fansLinked.testBit 0 = s.fansLinked.testBit 0 ∧
    (spindleStep false s idx).1.fan0OffPending = s.fan0OffPending ∧
    (spindleStep false s idx).1.port = s.port ∧
    (spindleStep false s idx).1.spindleLink = s.spindleLink ∧
    (spindleStep false s idx).1.fan0OffDelay = s.fan0OffDelay ∧
    (spindleStep false s idx).2.count Ev.taskAddDelayed = 0 := by
  rw [spindleStep_false_eq]
  by_cases h4 : idx < 4
  · simp only [dif_pos h4]
    by_cases hc : s.spindleLink.testBit idx = true ∧ s.fansLinked.testBit idx = true
    · have hs : ¬ (idx = 0 ∧ 0 < s.fan0OffDelay) := fun h => hidx h.1
      simp only [if_pos hc, if_neg hs]
      have h0 : (0 : Nat) ≠ idx := fun h => hidx h.symm
      exact ⟨fan_set_state_other_on_bit s ⟨idx, h4⟩ false h0 (by norm_num),
        fan_set_state_other_linked_bit s ⟨idx, h4⟩ false h0 (by norm_num),
        fan_set_state_pending_ne_zero s ⟨idx, h4⟩ false hidx,
        fan_set_state_port s ⟨idx, h4⟩ false,
        fan_set_state_spindleLink s ⟨idx, h4⟩ false,
        fan_set_state_delay s ⟨idx, h4⟩ false,
        fan_set_state_count_taskAdd s ⟨idx, h4⟩ false⟩
    · simp [hc]
  · simp [h4]

theorem spindleLoop_off_linked_succ (n : Nat) : ∀ s : FanState,
    s.spindleLink.testBit 0 = true → s.fansLinked.testBit 0 = true →
    ((0 < s.fan0OffDelay →
        (spindleLoop false (n + 1) s).1.fansOn.testBit 0 = s.fansOn.testBit 0 ∧
        (spindleLoop false (n + 1) s).1.fan0OffPending = true ∧
        (spindleLoop false (n + 1) s).1.port = s.port ∧
        (spindleLoop false (n + 1) s).2.count Ev.taskAddDelayed = 1) ∧
     (s.fan0OffDelay = 0 → s.port 0 ≠ 255 →
        (spindleLoop false (n + 1) s).1.fansOn.testBit 0 = false ∧
        (spindleLoop false (n + 1) s).1.port = s.port)) := by
  induction n with
  | zero =>
    intro s h1 h2
    have hbase : spindleLoop false 1 s =
        ((spindleStep false s 0).1, (spindleStep false s 0).2 ++ []) := rfl
    constructor
    · intro hd
      have hstep : spindleStep false s 0 = ({ s with fan0OffPending := true }, [Ev.taskAddDelayed]) := by
        rw [spindleStep_false_eq]
        simp [h1, h2, hd]
      rw [hbase, hstep]
      simp
    · intro hd hp
      have hstep : spindleStep false s 0 = fan_set_state s 0 false := by
        rw [spindleStep_false_eq]
        simp [h1, h2, hd]
      rw [hbase, hstep]
      have hget := fan_get_after_set_off s 0 0
      simp only [if_pos rfl] at hget
      refine ⟨?_, fan_set_state_port s 0 false⟩
      rw [fan_set_state_state s 0 false hp]
      simp [testBit_bit_false_self s.fansOn (by norm_num : (0 : Nat) < 32)]
  | succ n ih =>
    intro s h1 h2
    obtain ⟨e1, e2, e3, e4, e5, e6, e7⟩ := spindleStep_off_ne_zero s (n + 1) n.succ_ne_zero
    have hloop : spindleLoop false (n + 2) s =
        ((spindleLoop false (n + 1) (spindleStep false s (n + 1)).1).1,
         (spindleStep false s (n + 1)).2 ++
           (spindleLoop false (n + 1) (spindleStep false s (n + 1)).1).2) := rfl
    have ih2 := ih (spindleStep false s (n + 1)).1 (e5 ▸ h1) (e2.trans h2)
    constructor
    · intro hd
      obtain ⟨f1, f2, f3, f4⟩ := ih2.1 (e6 ▸ hd)
      rw [hloop]
      refine ⟨f1.trans e1, f2, f3.trans e4, ?_⟩
      simp [List.count_append, e7, f4]
    · intro hd hp
      obtain ⟨f1, f2⟩ := ih2.2 (e6.trans hd) (e4 ▸ hp)
      rw [hloop]
      exact ⟨f1, f2.trans e4⟩

theorem spindleStep_off_unlinked (s : FanState) (idx i : Nat) (hi : i < 4)
    (hL : s.fansLinked.testBit i = false) :
    (spindleStep false s idx).1.fansOn.testBit i = s.fansOn.testBit i ∧
    (spindleStep false s idx).1.fansLinked.testBit i = false ∧
    (spindleStep false s idx).1.port = s.port ∧
    (spindleStep false s idx).1.spindleLink = s.spindleLink ∧
    (spindleStep false s idx).1.fan0OffDelay = s.fan0OffDelay ∧
    (i = 0 → (spindleStep false s idx).1.fan0OffPending = s.fan0OffPending ∧
             (spindleStep false s idx).2.count Ev.taskAddDelayed = 0) := by
  rw [spindleStep_false_eq]
  by_cases h4 : idx < 4
  · simp only [dif_pos h4]
    by_cases hc : s.spindleLink.testBit idx = true ∧ s.fansLinked.testBit idx = true
    · have hne : idx ≠ i := fun h => by rw [h, hL] at hc; exact absurd hc.2 (by simp)
      by_cases hs : idx = 0 ∧ 0 < s.fan0OffDelay
      · have hstep : (if s.spindleLink.testBit idx = true ∧ s.fansLinked.testBit idx = true then
              if idx = 0 ∧ 0 < s.fan0OffDelay then
                ({ s with fan0OffPending := true }, [Ev.taskAddDelayed])
              else fan_set_state s ⟨idx, h4⟩ false
            else (s, ([] : List Ev))) =
            ({ s with fan0OffPending := true }, [Ev.taskAddDelayed]) := by
          rw [if_pos hc, if_pos hs]
        rw [hstep]
        exact ⟨rfl, hL, rfl, rfl, rfl, fun h0 => absurd (hs.1.trans h0.symm) hne⟩
      · simp only [if_pos hc, if_neg hs]
        have hiv : i ≠ idx := fun h => hne h.symm
        refine ⟨fan_set_state_other_on_bit s ⟨idx, h4⟩ false hiv (by omega),
          (fan_set_state_other_linked_bit s ⟨idx, h4⟩ false hiv (by omega)).trans hL,
          fan_set_state_port s ⟨idx, h4⟩ false,
          fan_set_state_spindleLink s ⟨idx, h4⟩ false,
          fan_set_state_delay s ⟨idx, h4⟩ false, ?_⟩
        intro h0
        refine ⟨fan_set_state_pending_ne_zero s ⟨idx, h4⟩ false ?_,
          fan_set_state_count_taskAdd s ⟨idx, h4⟩ false⟩
        simpa using fun h => hne (h.trans h0.symm)
    · simp [hc, hL]
  · simp [h4, hL]

theorem spindleLoop_off_unlinked (i : Nat) (hi : i < 4) : ∀ (n : Nat) (s : FanState),
    s.fansLinked.testBit i = false →
    (spindleLoop false n s).1.fansOn.testBit i = s.fansOn.testBit i ∧
    (spindleLoop false n s).1.fansLinked.testBit i = false ∧
    (i = 0 → (spindleLoop false n s).1.fan0OffPending = s.fan0OffPending ∧
             (spindleLoop false n s).2.count Ev.taskAddDelayed = 0) := by
  intro n
  induction n with
  | zero => intro s hL; exact ⟨rfl, hL, fun _ => ⟨rfl, rfl⟩⟩
  | succ n ih =>
    intro s hL
    obtain ⟨e1, e2, e3, e4, e5, e6⟩ := spindleStep_off_unlinked s n i hi hL
    have hloop : spindleLoop false (n + 1) s =
        ((spindleLoop false n (spindleStep false s n).1).1,
         (spindleStep false s n).2 ++ (spindleLoop false n (spindleStep false s n).1).2) := rfl
    obtain ⟨f1, f2, f3⟩ := ih (spindleStep false s n).1 e2
    rw [hloop]
    refine ⟨f1.trans e1, f2, ?_⟩
    intro h0
    obtain ⟨g1, g2⟩ := e6 h0
    obtain ⟨k1, k2⟩ := f3 h0
    exact ⟨k1.trans g1, by simp [List.count_append, g2, k2]⟩

theorem offLoop_get_false (i : Fin 4) : ∀ (n : Nat) (s : FanState),
    fan_get_state s i = false → fan_get_state (offLoop n s).1 i = false := by
  intro n
  induction n with
  | zero => intro s h; exact h
  | succ n ih =>
    intro s h
    have hloop : (offLoop (n + 1) s).1 =
        (offLoop n (if h4 : n < 4 then fan_set_state s ⟨n, h4⟩ false else (s, [])).1).1 := rfl
    rw [hloop]
    by_cases h4 : n < 4
    · refine ih _ ?_
      rw [dif_pos h4, fan_get_after_set_off]
      by_cases hin : i = (⟨n, h4⟩ : Fin 4) <;> simp [hin, h]
    · rw [dif_neg h4]
      exact ih s h

theorem offLoop_spec : ∀ (n : Nat) (s : FanState),
    (offLoop n s).1.port = s.port ∧
    (∀ i : Fin 4, i.val < n → fan_get_state (offLoop n s).1 i = false) ∧
    (offLoop n s).2.count Ev.taskAddDelayed = 0 := by
  intro n
  induction n with
  | zero => intro s; exact ⟨rfl, fun i hi => absurd hi (Nat.not_lt_zero _), rfl⟩
  | succ n ih =>
    intro s
    by_cases h4 : n < 4
    · have hloop : offLoop (n + 1) s =
          ((offLoop n (fan_set_state s ⟨n, h4⟩ false).1).1,
           (fan_set_state s ⟨n, h4⟩ false).2 ++
             (offLoop n (fan_set_state s ⟨n, h4⟩ false).1).2) := by
        simp only [offLoop, dif_pos h4]
      obtain ⟨f1, f2, f3⟩ := ih (fan_set_state s ⟨n, h4⟩ false).1
      rw [hloop]
      refine ⟨f1.trans (fan_set_state_port s ⟨n, h4⟩ false), ?_, ?_⟩
      · intro i hi
        by_cases hin : i.val < n
        · exact f2 i hin
        · have hieq : i = (⟨n, h4⟩ : Fin 4) := Fin.ext (show i.val = n by omega)
          rw [hieq]
          refine offLoop_get_false _ n _ ?_
          rw [fan_get_after_set_off]
          simp
      · simp [List.count_append, f3, fan_set_state_count_taskAdd]
    · have hloop : offLoop (n + 1) s = ((offLoop n s).1, [] ++ (offLoop n s).2) := by
        simp only [offLoop, dif_neg h4]
      obtain ⟨f1, f2, f3⟩ := ih s
      rw [hloop]
      exact ⟨f1, fun i hi => f2 i (by omega), by simpa using f3⟩

theorem pcLoop_get_false (i : Fin 4) : ∀ (n : Nat) (s : FanState),
    fan_get_state s i = false → fan_get_state (pcLoop n s).1 i = false := by
  intro n
  induction n with
  | zero => intro s h; exact h
  | succ n ih =>
    intro s h
    by_cases hd : n = 0 ∧ s.port 0 ≠ 255 ∧ 0 < s.fan0OffDelay
    · have hloop : (pcLoop (n + 1) s).1 = (pcLoop n { s with fan0OffPending := true }).1 := by
        simp only [pcLoop, if_pos hd]
      rw [hloop]
      exact ih _ h
    · by_cases h4 : n < 4
      · have hloop : (pcLoop (n + 1) s).1 = (pcLoop n (fan_set_state s ⟨n, h4⟩ false).1).1 := by
          simp only [pcLoop, if_neg hd, dif_pos h4]
        rw [hloop]
        refine ih _ ?_
        rw [fan_get_after_set_off]
        by_cases hin : i = (⟨n, h4⟩ : Fin 4) <;> simp [hin, h]
      · have hloop : (pcLoop (n + 1) s).1 = (pcLoop n s).1 := by
          simp only [pcLoop, if_neg hd, dif_neg h4]
        rw [hloop]
        exact ih s h

theorem pcLoop_succ_spec (n : Nat) : ∀ s : FanState,
    (∀ i : Fin 4, i.val < n + 1 → 0 < i.val → fan_get_state (pcLoop (n + 1) s).1 i = false) ∧
    (s.port 0 ≠ 255 → 0 < s.fan0OffDelay →
       (pcLoop (n + 1) s).1.fan0OffPending = true ∧
       (pcLoop (n + 1) s).2.count Ev.taskAddDelayed = 1) ∧
    (¬ (s.port 0 ≠ 255 ∧ 0 < s.fan0OffDelay) →
       fan_get_state (pcLoop (n + 1) s).1 0 = false ∧
       (pcLoop (n + 1) s).2.count Ev.taskAddDelayed = 0) ∧
    (pcLoop (n + 1) s).2.count Ev.chainProgramCompleted = 0 := by
  induction n with
  | zero =>
    intro s
    by_cases hd : s.port 0 ≠ 255 ∧ 0 < s.fan0OffDelay
    · have hloop : pcLoop 1 s =
          ({ s with fan0OffPending := true }, [Ev.taskAddDelayed] ++ []) := by
        simp [pcLoop, hd.1, hd.2]
      rw [hloop]
      refine ⟨fun i h1 h2 => absurd h1 (by omega), fun _ _ => ⟨rfl, rfl⟩,
        fun hc => absurd hd hc, rfl⟩
    · have hnd : ¬ ((0 : Nat) = 0 ∧ s.port 0 ≠ 255 ∧ 0 < s.fan0OffDelay) := by
        intro hc
        exact hd ⟨hc.2.1, hc.2.2⟩
      have hloop : pcLoop 1 s =
          ((fan_set_state s 0 false).1, (fan_set_state s 0 false).2 ++ []) := by
        simp [pcLoop, hd]
      rw [hloop]
      refine ⟨fun i h1 h2 => absurd h1 (by omega), fun hp hdel => absurd ⟨hp, hdel⟩ hd, ?_, ?_⟩
      · refine fun _ => ⟨?_, ?_⟩
        · rw [fan_get_after_set_off]
          simp
        · simp [List.count_append, fan_set_state_count_taskAdd]
      · simp [List.count_append, fan_set_state_count_chainPC]
  | succ n ih =>
    intro s
    have hnd : ¬ ((n + 1 : Nat) = 0 ∧ s.port 0 ≠ 255 ∧ 0 < s.fan0OffDelay) := by
      intro hc
      exact absurd hc.1 n.succ_ne_zero
    by_cases h4 : n + 1 < 4
    · have hloop : pcLoop (n + 2) s =
          ((pcLoop (n + 1) (fan_set_state s ⟨n + 1, h4⟩ false).1).1,
           (fan_set_state s ⟨n + 1, h4⟩ false).2 ++
             (pcLoop (n + 1) (fan_set_state s ⟨n + 1, h4⟩ false).1).2) := by
        simp only [pcLoop, if_neg hnd, dif_pos h4]
      obtain ⟨f1, f2, f3, f4⟩ := ih (fan_set_state s ⟨n + 1, h4⟩ false).1
      have hport0 : (fan_set_state s ⟨n + 1, h4⟩ false).1.port 0 = s.port 0 := by
        rw [fan_set_state_port]
      have hdel : (fan_set_state s ⟨n + 1, h4⟩ false).1.fan0OffDelay = s.fan0OffDelay :=
        fan_set_state_delay s ⟨n + 1, h4⟩ false
      rw [hloop]
      refine ⟨?_, ?_, ?_, ?_⟩
      · intro i hi hpos
        by_cases hin : i.val < n + 1
        · exact f1 i hin hpos
        · have hieq : i = (⟨n + 1, h4⟩ : Fin 4) := Fin.ext (show i.val = n + 1 by omega)
          rw [hieq]
          refine pcLoop_get_false _ (n + 1) _ ?_
          rw [fan_get_after_set_off]
          simp
      · intro hp hdp
        obtain ⟨g1, g2⟩ := f2 (by rw [hport0]; exact hp) (by rw [hdel]; exact hdp)
        exact ⟨g1, by simp [List.count_append, g2, fan_set_state_count_taskAdd]⟩
      · intro hc
        have hc2 : ¬ ((fan_set_state s ⟨n + 1, h4⟩ false).1.port 0 ≠ 255 ∧
            0 < (fan_set_state s ⟨n + 1, h4⟩ false).1.fan0OffDelay) := by
          rw [hport0, hdel]
          exact hc
        obtain ⟨g1, g2⟩ := f3 hc2
        exact ⟨g1, by simp [List.count_append, g2, fan_set_state_count_taskAdd]⟩
      · simp [List.count_append, f4, fan_set_state_count_chainPC]
    · have hloop : pcLoop (n + 2) s =
          ((pcLoop (n + 1) s).1, [] ++ (pcLoop (n + 1) s).2) := by
        simp only [pcLoop, if_neg hnd, dif_neg h4]
      obtain ⟨f1, f2, f3, f4⟩ := ih s
      rw [hloop]
      exact ⟨fun i hi hpos => f1 i (by omega) hpos, f2, f3, by simpa using f4⟩

/-- C1.  The claim says validation succeeds iff the P value is a non-negative
integer below the number of configured fans naming an assigned port, and that
with two configured fans `M106 P1` succeeds while `M106 P5` fails with a range
error.  The code has no upper-bound check: it only tests
`fans.port[(uint_fast8_t)p] == 0xFF`.  In the post-load state of a
`FANS_ENABLE = 2` build the untouched entries `fans.port[2]` and
`fans.port[3]` keep their static-zero value 0, so `M106 P3` (and `P2`)
validates as `Status_OK`, and `M106 P5` reads past the end of the four-entry
port array (undefined behavior, modelled as `none`) instead of failing with a
range error. -/
theorem userMCodeValidate_no_upper_bound :
    userMCodeValidate postLoadState2 .Fan_On true 1 = some (.Status_OK, false) ∧
    userMCodeValidate postLoadState2 .Fan_On true 3 = some (.Status_OK, false) ∧
    userMCodeValidate postLoadState2 .Fan_On true 5 = none := by
  decide

/-- C2.  For every fan index whose port is assigned, `fan_set_state i true`
followed by `fan_get_state i` returns true, and `fan_set_state i false`
followed by `fan_get_state i` returns false. -/
theorem fan_set_then_get (s : FanState) (i : Fin 4) (h : s.port i ≠ 255) :
    fan_get_state (fan_set_state s i true).1 i = true ∧
    fan_get_state (fan_set_state s i false).1 i = false := by
  have h32 : i.val < 32 := lt_trans i.isLt (by norm_num)
  constructor
  · rw [fan_get_state, fan_set_state_state s i true h]
    simp [h, testBit_bit_true_self]
  · rw [fan_get_state, fan_set_state_state s i false h]
    simp [h, testBit_bit_false_self _ h32]

theorem fan_set_then_get_witness :
    exState.port 0 ≠ 255 ∧
    (fan_get_state (fan_set_state exState 0 true).1 0 = true ∧
     fan_get_state (fan_set_state exState 0 false).1 0 = false) :=
  ⟨by decide, fan_set_then_get exState 0 (by decide)⟩

/-- C4.  Every `fan_set_state` call addressing fan 0 with its port assigned
cancels the pending delayed-off task: the modelled pending flag is cleared and
a `task_delete` call is issued, whichever way the fan is being switched. -/
theorem fan0_set_cancels_pending (s : FanState) (b : Bool) (h : s.port 0 ≠ 255) :
    (fan_set_state s 0 b).1.fan0OffPending = false ∧
    Ev.taskDelete ∈ (fan_set_state s 0 b).2 := by
  constructor
  · rw [fan_set_state_state s 0 b h]
    simp
  · rw [fan_set_state_events s 0 b h]
    simp

theorem fan0_set_cancels_pending_witness :
    exState.port 0 ≠ 255 ∧
    ((fan_set_state exState 0 true).1.fan0OffPending = false ∧
     Ev.taskDelete ∈ (fan_set_state exState 0 true).2) :=
  ⟨by decide, fan0_set_cancels_pending exState true (by decide)⟩

/-- C5 counterexample.  The claim says a non-integer P value fails with a
number-format error distinct from the value-range error.  On the code, P = 3/2
fails `isintf` and yields `Status_GcodeValueOutOfRange` — the very value-range
error the claim says it is distinct from, and not
`Status_BadNumberFormat`. -/
theorem nonint_p_not_number_format :
    userMCodeValidate postLoadState2 .Fan_On true (Rat.mk' 3 2) =
      some (.Status_GcodeValueOutOfRange, false) ∧
    status_code_t.Status_GcodeValueOutOfRange ≠ status_code_t.Status_BadNumberFormat := by
  decide

/-- C5 amended.  For every M106/M107 block whose P value is not an integer,
validation fails with the value-range error `Status_GcodeValueOutOfRange` (the
same error used for out-of-range indices), not with a number-format error. -/
theorem nonint_p_value_range (s : FanState) (mcode : user_mcode_t) (p : Rat)
    (hm : mcode = .Fan_On ∨ mcode = .Fan_Off) (hp : isintf p = false) :
    userMCodeValidate s mcode true p = some (.Status_GcodeValueOutOfRange, false) := by
  rcases hm with hm | hm <;> subst hm <;> simp [userMCodeValidate, hp]

theorem nonint_p_value_range_witness :
    ((user_mcode_t.Fan_On = user_mcode_t.Fan_On ∨ user_mcode_t.Fan_On = user_mcode_t.Fan_Off) ∧
     isintf (Rat.mk' 3 2) = false) ∧
    userMCodeValidate exState .Fan_On true (Rat.mk' 3 2) =
      some (.Status_GcodeValueOutOfRange, false) :=
  ⟨⟨Or.inl rfl, by decide⟩,
   nonint_p_value_range exState .Fan_On (Rat.mk' 3 2) (Or.inl rfl) (by decide)⟩

/-- C8.  For every fan index whose port is unassigned (sentinel 0xFF),
`fan_set_state` is a complete no-op — the state (in particular the on/off and
linked bitsets) is unchanged and no host call (in particular no port write) is
made — and `fan_get_state` returns false. -/
theorem unassigned_fan_noop (s : FanState) (i : Fin 4) (b : Bool) (h : s.port i = 255) :
    fan_set_state s i b = (s, []) ∧ fan_get_state s i = false := by
  refine ⟨fan_set_state_unassigned s i b h, ?_⟩
  simp [fan_get_state, h]

theorem unassigned_fan_noop_witness :
    exState.port 2 = 255 ∧
    (fan_set_state exState 2 true = (exState, []) ∧ fan_get_state exState 2 = false) :=
  ⟨by decide, unassigned_fan_noop exState 2 true (by decide)⟩

/-- C10.  `set_float` with `Setting_FanPort3` and a non-negative integral
value stores the value into `fan_setting.port[2]` (fans.c line 320 indexes
`port[2]` in the `Setting_FanPort3` case) and leaves `fan_setting.port[3]`
unchanged. -/
theorem set_float_fanport3_stores_port2 (fs : FanSettings) (v : Rat)
    (h1 : isintf v = true) (h2 : 0 ≤ v) (_h3 : v < 256) :
    (set_float fs .Setting_FanPort3 v).1 = .Status_OK ∧
    (set_float fs .Setting_FanPort3 v).2.port 2 = floatToUint8 v ∧
    (set_float fs .Setting_FanPort3 v).2.port 3 = fs.port 3 := by
  have hneg : ¬ v < 0 := not_lt.mpr h2
  refine ⟨by simp [set_float, h1], ?_, ?_⟩ <;>
    simp [set_float, h1, storePort, hneg, Function.update_apply]

theorem set_float_fanport3_stores_port2_witness :
    (isintf (5 : Rat) = true ∧ (0 : Rat) ≤ 5 ∧ (5 : Rat) < 256) ∧
    ((set_float exSettings .Setting_FanPort3 5).1 = .Status_OK ∧
     (set_float exSettings .Setting_FanPort3 5).2.port 2 = floatToUint8 5 ∧
     (set_float exSettings .Setting_FanPort3 5).2.port 3 = exSettings.port 3) :=
  ⟨⟨by decide, by decide, by decide⟩,
   set_float_fanport3_stores_port2 exSettings 5 (by decide) (by decide) (by decide)⟩

/-- C3.  When the intercepted spindle state-setter runs with the spindle
turning off while fan 0 is linked (link mask bit 0 set and fan 0 currently
spindle-driven, with its port assigned): a zero configured delay turns fan 0
off within that call, while a positive delay schedules exactly one deferred
off task, leaves fan 0 switched on, and the pending task is cancelled by a
subsequent fan-0 on command (M106 executing `fan_set_state(0, On)`). -/
theorem spindle_off_fan0_linked (n : Nat) (s : FanState) (hn : 1 ≤ n)
    (h1 : s.spindleLink.testBit 0 = true) (h2 : s.fansLinked.testBit 0 = true)
    (h3 : s.port 0 ≠ 255) :
    (s.fan0OffDelay = 0 → fan_get_state (onSpindleSetState n false s).1 0 = false) ∧
    (0 < s.fan0OffDelay →
      (onSpindleSetState n false s).2.count Ev.taskAddDelayed = 1 ∧
      (onSpindleSetState n false s).1.fansOn.testBit 0 = s.fansOn.testBit 0 ∧
      (onSpindleSetState n false s).1.fan0OffPending = true ∧
      (userMCodeExecute (onSpindleSetState n false s).1 false .Fan_On false 0).1.fan0OffPending
        = false) := by
  obtain ⟨m, rfl⟩ : ∃ m, n = m + 1 := ⟨n - 1, by omega⟩
  have hl := spindleLoop_off_linked_succ m s h1 h2
  have hss : onSpindleSetState (m + 1) false s =
      ((spindleLoop false (m + 1) s).1,
       (spindleLoop false (m + 1) s).2 ++ [Ev.chainSpindleSetState false]) := rfl
  constructor
  · intro hd
    obtain ⟨f1, f2⟩ := hl.2 hd h3
    rw [hss]
    simp [fan_get_state, f1]
  · intro hd
    obtain ⟨f1, f2, f3, f4⟩ := hl.1 hd
    rw [hss]
    refine ⟨?_, f1, f2, ?_⟩
    · simp [List.count_append, List.count_cons, List.count_nil, f4]
    · have hexec : userMCodeExecute (spindleLoop false (m + 1) s).1 false .Fan_On false 0 =
          fan_set_state (spindleLoop false (m + 1) s).1 0 true := rfl
      rw [hexec, fan_set_state_state _ 0 true (by rw [f3]; exact h3)]
      simp

theorem spindle_off_fan0_linked_witness :
    (1 ≤ 1 ∧ linkedState.spindleLink.testBit 0 = true ∧
     linkedState.fansLinked.testBit 0 = true ∧ linkedState.port 0 ≠ 255) ∧
    ((linkedState.fan0OffDelay = 0 →
        fan_get_state (onSpindleSetState 1 false linkedState).1 0 = false) ∧
     (0 < linkedState.fan0OffDelay →
        (onSpindleSetState 1 false linkedState).2.count Ev.taskAddDelayed = 1 ∧
        (onSpindleSetState 1 false linkedState).1.fansOn.testBit 0 =
          linkedState.fansOn.testBit 0 ∧
        (onSpindleSetState 1 false linkedState).1.fan0OffPending = true ∧
        (userMCodeExecute (onSpindleSetState 1 false linkedState).1 false
            .Fan_On false 0).1.fan0OffPending = false)) :=
  ⟨⟨by decide, by decide, by decide, by decide⟩,
   spindle_off_fan0_linked 1 linkedState (by decide) (by decide) (by decide) (by decide)⟩

/-- C7.  When the intercepted spindle state-setter runs with the spindle
turning off, a link-configured fan whose spindle-driven (linked) bit is clear
is left untouched: its on bit and linked bit are unchanged, and (for fan 0,
the only fan with a delayed-off path) no deferred off task is scheduled. -/
theorem spindle_off_unlinked_unchanged (n : Nat) (s : FanState) (i : Nat) (hi : i < 4)
    (_hcfg : s.spindleLink.testBit i = true) (hL : s.fansLinked.testBit i = false) :
    (onSpindleSetState n false s).1.fansOn.testBit i = s.fansOn.testBit i ∧
    (onSpindleSetState n false s).1.fansLinked.testBit i = false ∧
    (i = 0 → (onSpindleSetState n false s).1.fan0OffPending = s.fan0OffPending ∧
             (onSpindleSetState n false s).2.count Ev.taskAddDelayed = 0) := by
  obtain ⟨f1, f2, f3⟩ := spindleLoop_off_unlinked i hi n s hL
  have hss : onSpindleSetState n false s =
      ((spindleLoop false n s).1,
       (spindleLoop false n s).2 ++ [Ev.chainSpindleSetState false]) := rfl
  rw [hss]
  refine ⟨f1, f2, fun h0 => ⟨(f3 h0).1, ?_⟩⟩
  simp [List.count_append, List.count_cons, List.count_nil, (f3 h0).2]

theorem spindle_off_unlinked_unchanged_witness :
    ((0 : Nat) < 4 ∧ unlinkedState.spindleLink.testBit 0 = true ∧
     unlinkedState.fansLinked.testBit 0 = false) ∧
    ((onSpindleSetState 1 false unlinkedState).1.fansOn.testBit 0 =
       unlinkedState.fansOn.testBit 0 ∧
     (onSpindleSetState 1 false unlinkedState).1.fansLinked.testBit 0 = false ∧
     ((0 : Nat) = 0 →
       (onSpindleSetState 1 false unlinkedState).1.fan0OffPending =
         unlinkedState.fan0OffPending ∧
       (onSpindleSetState 1 false unlinkedState).2.count Ev.taskAddDelayed = 0)) :=
  ⟨⟨by decide, by decide, by decide⟩,
   spindle_off_unlinked_unchanged 1 unlinkedState 0 (by decide) (by decide) (by decide)⟩

/-- C6 counterexample.  The claim says the driver-reset hook first forces
every fan off and only after that delegates to the previously-chained
handler.  In the code `driverReset` calls the saved `driver_reset()` before
touching any fan: in a concrete state (fan 0 on, port 2, positive off delay)
the very first host call of the hook is the delegation, followed by the
off-forcing, and no delayed-off path is used even though the delay is
positive. -/
theorem driverReset_delegates_first :
    (driverReset 1 resetState).2 =
      [Ev.chainDriverReset, Ev.taskDelete, Ev.digitalOut 2 false] ∧
    0 < resetState.fan0OffDelay ∧
    (driverReset 1 resetState).2.count Ev.taskAddDelayed = 0 ∧
    fan_get_state (driverReset 1 resetState).1 0 = false := by
  decide

/-- C6 amended.  The program-completed hook first forces every fan off
(immediately, or via the delayed-off path for fan 0 when its port is assigned
and a positive delay is configured) and delegates only afterwards: the
delegation is the last host call and occurs exactly once.  The driver-reset
hook instead delegates to the previously-chained handler first — its first
host call is the delegation — and then forces every fan off immediately,
fan 0 included, never using the delayed-off path. -/
theorem lifecycle_hooks_force_off (n : Nat) (s : FanState) (hn : 1 ≤ n) :
    ((onProgramCompleted n s).2.getLast? = some Ev.chainProgramCompleted ∧
     (onProgramCompleted n s).2.count Ev.chainProgramCompleted = 1) ∧
    (∀ i : Fin 4, i.val < n → 0 < i.val →
       fan_get_state (onProgramCompleted n s).1 i = false) ∧
    (s.port 0 ≠ 255 → 0 < s.fan0OffDelay →
       (onProgramCompleted n s).1.fan0OffPending = true ∧
       (onProgramCompleted n s).2.count Ev.taskAddDelayed = 1) ∧
    (¬ (s.port 0 ≠ 255 ∧ 0 < s.fan0OffDelay) →
       fan_get_state (onProgramCompleted n s).1 0 = false) ∧
    ((driverReset n s).2.head? = some Ev.chainDriverReset ∧
     (∀ i : Fin 4, i.val < n → fan_get_state (driverReset n s).1 i = false) ∧
     (driverReset n s).2.count Ev.taskAddDelayed = 0) := by
  obtain ⟨m, rfl⟩ : ∃ m, n = m + 1 := ⟨n - 1, by omega⟩
  obtain ⟨f1, f2, f3, f4⟩ := pcLoop_succ_spec m s
  have hpc : onProgramCompleted (m + 1) s =
      ((pcLoop (m + 1) s).1, (pcLoop (m + 1) s).2 ++ [Ev.chainProgramCompleted]) := rfl
  obtain ⟨g1, g2, g3⟩ := offLoop_spec (m + 1) s
  have hdr : driverReset (m + 1) s =
      ((offLoop (m + 1) s).1, Ev.chainDriverReset :: (offLoop (m + 1) s).2) := rfl
  refine ⟨⟨?_, ?_⟩, ?_, ?_, ?_, ?_, ?_, ?_⟩
  · rw [hpc]
    exact List.getLast?_concat _
  · rw [hpc]
    simp [List.count_append, List.count_cons, List.count_nil, f4]
  · intro i hi hpos
    rw [hpc]
    exact f1 i hi hpos
  · intro hp hdel
    obtain ⟨k1, k2⟩ := f2 hp hdel
    rw [hpc]
    exact ⟨k1, by simp [List.count_append, List.count_cons, List.count_nil, k2]⟩
  · intro hc
    rw [hpc]
    exact (f3 hc).1
  · rw [hdr]
    rfl
  · intro i hi
    rw [hdr]
    exact g2 i hi
  · rw [hdr]
    simp [List.count_cons, g3]

theorem lifecycle_hooks_force_off_witness :
    1 ≤ 1 ∧
    (((onProgramCompleted 1 resetState).2.getLast? = some Ev.chainProgramCompleted ∧
      (onProgramCompleted 1 resetState).2.count Ev.chainProgramCompleted = 1) ∧
     (∀ i : Fin 4, i.val < 1 → 0 < i.val →
        fan_get_state (onProgramCompleted 1 resetState).1 i = false) ∧
     (resetState.port 0 ≠ 255 → 0 < resetState.fan0OffDelay →
        (onProgramCompleted 1 resetState).1.fan0OffPending = true ∧
        (onProgramCompleted 1 resetState).2.count Ev.taskAddDelayed = 1) ∧
     (¬ (resetState.port 0 ≠ 255 ∧ 0 < resetState.fan0OffDelay) →
        fan_get_state (onProgramCompleted 1 resetState).1 0 = false) ∧
     ((driverReset 1 resetState).2.head? = some Ev.chainDriverReset ∧
      (∀ i : Fin 4, i.val < 1 → fan_get_state (driverReset 1 resetState).1 i = false) ∧
      (driverReset 1 resetState).2.count Ev.taskAddDelayed = 0)) :=
  ⟨by decide, lifecycle_hooks_force_off 1 resetState (by decide)⟩

theorem Inv_fan_set_state (s : FanState) (i : Fin 4) (b : Bool) (h : Inv s) :
    Inv (fan_set_state s i b).1 := by
  obtain ⟨hA, hB, hC⟩ := h
  have h32 : i.val < 32 := lt_trans i.isLt (by norm_num)
  by_cases hp : s.port i = 255
  · rw [fan_set_state_unassigned s i b hp]
    exact ⟨hA, hB, hC⟩
  · have hPort : (fan_set_state s i b).1.port = s.port := fan_set_state_port s i b
    have hSL : (fan_set_state s i b).1.spindleLink = s.spindleLink :=
      fan_set_state_spindleLink s i b
    cases b
    · have hOn : (fan_set_state s i false).1.fansOn = bit_false s.fansOn i.val := by
        rw [fan_set_state_state s i false hp]
        rfl
      have hLk : (fan_set_state s i false).1.fansLinked = bit_false s.fansLinked i.val := by
        rw [fan_set_state_state s i false hp]
        rfl
      refine ⟨fun j hj => ?_, fun j hj => ?_, fun j hj => ?_⟩
      · rw [hLk] at hj
        rw [hOn]
        by_cases hij : j.val = i.val
        · rw [hij, testBit_bit_false_self s.fansLinked h32] at hj
          exact absurd hj (by simp)
        · rw [testBit_bit_false_of_ne _ hij (lt_trans j.isLt (by norm_num))] at hj
          rw [testBit_bit_false_of_ne _ hij (lt_trans j.isLt (by norm_num))]
          exact hA j hj
      · rw [hOn] at hj
        rw [hPort]
        by_cases hij : j.val = i.val
        · rw [hij, testBit_bit_false_self s.fansOn h32] at hj
          exact absurd hj (by simp)
        · rw [testBit_bit_false_of_ne _ hij (lt_trans j.isLt (by norm_num))] at hj
          exact hB j hj
      · rw [hSL] at hj
        rw [hPort]
        exact hC j hj
    · have hOn : (fan_set_state s i true).1.fansOn = bit_true s.fansOn i.val := by
        rw [fan_set_state_state s i true hp]
        rfl
      have hLk : (fan_set_state s i true).1.fansLinked = s.fansLinked := by
        rw [fan_set_state_state s i true hp]
        rfl
      refine ⟨fun j hj => ?_, fun j hj => ?_, fun j hj => ?_⟩
      · rw [hLk] at hj
        rw [hOn]
        by_cases hij : j.val = i.val
        · rw [hij]
          exact testBit_bit_true_self _ _
        · rw [testBit_bit_true_of_ne _ hij]
          exact hA j hj
      · rw [hOn] at hj
        rw [hPort]
        by_cases hij : j.val = i.val
        · rw [Fin.ext hij]
          exact hp
        · rw [testBit_bit_true_of_ne _ hij] at hj
          exact hB j hj
      · rw [hSL] at hj
        rw [hPort]
        exact hC j hj

theorem Inv_spindleStep (b : Bool) (s : FanState) (idx : Nat) (h : Inv s) :
    Inv (spindleStep b s idx).1 := by
  cases b
  · rw [spindleStep_false_eq]
    by_cases h4 : idx < 4
    · rw [dif_pos h4]
      by_cases hc : s.spindleLink.testBit idx = true ∧ s.fansLinked.testBit idx = true
      · rw [if_pos hc]
        by_cases hs : idx = 0 ∧ 0 < s.fan0OffDelay
        · rw [if_pos hs]
          exact h
        · rw [if_neg hs]
          exact Inv_fan_set_state _ _ _ h
      · rw [if_neg hc]
        exact h
    · rw [dif_neg h4]
      exact h
  · rw [spindleStep_true_eq]
    by_cases h4 : idx < 4
    · rw [dif_pos h4]
      by_cases hl : s.spindleLink.testBit idx = true
      · rw [if_pos hl]
        by_cases hg : fan_get_state s ⟨idx, h4⟩ = false
        · rw [if_pos hg]
          have hp0 : s.port ⟨idx, h4⟩ ≠ 255 := h.2.2 ⟨idx, h4⟩ hl
          obtain ⟨hA, hB, hC⟩ := h
          have hOn : (fan_set_state { s with fansLinked := bit_true s.fansLinked idx }
              ⟨idx, h4⟩ true).1.fansOn = bit_true s.fansOn idx := by
            rw [fan_set_state_state { s with fansLinked := bit_true s.fansLinked idx }
              ⟨idx, h4⟩ true hp0]
            rfl
          have hLk : (fan_set_state { s with fansLinked := bit_true s.fansLinked idx }
              ⟨idx, h4⟩ true).1.fansLinked = bit_true s.fansLinked idx := by
            rw [fan_set_state_state { s with fansLinked := bit_true s.fansLinked idx }
              ⟨idx, h4⟩ true hp0]
            rfl
          have hPort : (fan_set_state { s with fansLinked := bit_true s.fansLinked idx }
              ⟨idx, h4⟩ true).1.port = s.port :=
            fan_set_state_port _ _ _
          have hSL : (fan_set_state { s with fansLinked := bit_true s.fansLinked idx }
              ⟨idx, h4⟩ true).1.spindleLink = s.spindleLink :=
            fan_set_state_spindleLink _ _ _
          refine ⟨fun j hj => ?_, fun j hj => ?_, fun j hj => ?_⟩
          · rw [hLk] at hj
            rw [hOn]
            by_cases hij : j.val = idx
            · rw [hij]
              exact testBit_bit_true_self _ _
            · rw [testBit_bit_true_of_ne _ hij] at hj
              rw [testBit_bit_true_of_ne _ hij]
              exact hA j hj
          · rw [hOn] at hj
            rw [hPort]
            by_cases hij : j.val = idx
            · have hje : j = (⟨idx, h4⟩ : Fin 4) := Fin.ext hij
              rw [hje]
              exact hp0
            · rw [testBit_bit_true_of_ne _ hij] at hj
              exact hB j hj
          · rw [hSL] at hj
            rw [hPort]
            exact hC j hj
        · rw [if_neg hg]
          exact Inv_fan_set_state _ _ _ h
      · rw [if_neg hl]
        exact h
    · rw [dif_neg h4]
      exact h

theorem Inv_spindleLoop (b : Bool) : ∀ (n : Nat) (s : FanState),
    Inv s → Inv (spindleLoop b n s).1 := by
  intro n
  induction n with
  | zero => intro s h; exact h
  | succ n ih =>
    intro s h
    exact ih _ (Inv_spindleStep b s n h)

theorem Inv_offLoop : ∀ (n : Nat) (s : FanState), Inv s → Inv (offLoop n s).1 := by
  intro n
  induction n with
  | zero => intro s h; exact h
  | succ n ih =>
    intro s h
    refine ih _ ?_
    by_cases h4 : n < 4
    · rw [dif_pos h4]
      exact Inv_fan_set_state _ _ _ h
    · rw [dif_neg h4]
      exact h

theorem Inv_pcLoop : ∀ (n : Nat) (s : FanState), Inv s → Inv (pcLoop n s).1 := by
  intro n
  induction n with
  | zero => intro s h; exact h
  | succ n ih =>
    intro s h
    refine ih _ ?_
    by_cases hd : n = 0 ∧ s.port 0 ≠ 255 ∧ 0 < s.fan0OffDelay
    · rw [if_pos hd]
      exact h
    · rw [if_neg hd]
      by_cases h4 : n < 4
      · rw [dif_pos h4]
        exact Inv_fan_set_state _ _ _ h
      · rw [dif_neg h4]
        exact h

theorem Inv_userMCodeExecute (s : FanState) (cm : Bool) (mc : user_mcode_t)
    (wp : Bool) (vp : Fin 4) (h : Inv s) : Inv (userMCodeExecute s cm mc wp vp).1 := by
  unfold userMCodeExecute
  cases cm
  · cases mc
    · exact Inv_fan_set_state _ _ _ h
    · by_cases hf : (if wp then vp else (0 : Fin 4)).val = 0
      · simp only [if_pos hf]
        exact Inv_fan_set_state _ _ _ h
      · simp only [if_neg hf]
        exact Inv_fan_set_state _ _ _ h
    · exact h
  · exact h

theorem Inv_onAccessoryOverride (s : FanState) (b : Bool) (h : Inv s) :
    Inv (onAccessoryOverride s b).1 := by
  unfold onAccessoryOverride
  by_cases hc : b = true ∧ s.port 0 ≠ 255
  · rw [if_pos hc]
    exact Inv_fan_set_state _ _ _ h
  · rw [if_neg hc]
    exact h

theorem Inv_applyOp (nFans : Nat) (s : FanState) (op : FanOp) (h : Inv s) :
    Inv (applyOp nFans s op).1 := by
  cases op with
  | setState fan b => exact Inv_fan_set_state _ _ _ h
  | getState _ => exact h
  | mcodeExecute cm mc wp vp => exact Inv_userMCodeExecute s cm mc wp vp h
  | spindleSetState b => exact Inv_spindleLoop b nFans s h
  | reset => exact Inv_offLoop nFans s h
  | programCompleted => exact Inv_pcLoop nFans s h
  | accessoryOverride b => exact Inv_onAccessoryOverride s b h

theorem Inv_runOps (nFans : Nat) : ∀ (ops : List FanOp) (s : FanState),
    Inv s → Inv (runOps nFans s ops) := by
  intro ops
  induction ops with
  | nil => intro s h; exact h
  | cons op ops ih =>
    intro s h
    exact ih _ (Inv_applyOp nFans s op h)

/-- C9.  From the initial state (both runtime bitsets zero, as the static
variables of fans.c start, and the runtime spindle-link mask zero), every
sequence of the module's operations preserves the invariant: a fan whose
linked bit is set has its on bit set, and a fan whose on bit is set has an
assigned port. -/
theorem module_invariant (nFans : Nat) (port : Fin 4 → Nat) (delay : Rat)
    (ops : List FanOp) :
    (∀ i : Fin 4,
       (runOps nFans (initState port delay) ops).fansLinked.testBit i.val = true →
       (runOps nFans (initState port delay) ops).fansOn.testBit i.val = true) ∧
    (∀ i : Fin 4,
       (runOps nFans (initState port delay) ops).fansOn.testBit i.val = true →
       (runOps nFans (initState port delay) ops).port i ≠ 255) := by
  have h0 : Inv (initState port delay) := by
    refine ⟨fun i hi => ?_, fun i hi => ?_, fun i hi => ?_⟩ <;>
      simp [initState, Nat.zero_testBit] at hi
  have h := Inv_runOps nFans ops (initState port delay) h0
  exact ⟨h.1, h.2.1⟩

end Fans
